import Mathlib

/-!
A shallow embedding of src/woodlouse.js.

Vectors (position, velocity, acceleration) are modelled as complex numbers
with re ↔ x and im ↔ y, so that Math.hypot(x, y) becomes Complex.abs ⟨x, y⟩.
JavaScript floating-point arithmetic is idealised as real arithmetic.
Math.random() results are passed in as explicit real parameters (named r, r1,
r2, rs, rw), with rnd r a b modelling rnd(a, b) = a + Math.random()*(b-a).
DOM objects are reduced to the data the algorithms actually read: a surface
element is a natural-number id, its layer keeps the id of its parent element
and the list of lice living on it.
-/

/-- CFG.size from src/woodlouse.js line 11. -/
def CFG.size : ℝ := 46

/-- CFG.speedMin from line 15. -/
def CFG.speedMin : ℝ := 240

/-- CFG.speedMax from line 15. -/
def CFG.speedMax : ℝ := 340

/-- CFG.baseSpeed[0] from line 15. -/
def CFG.baseSpeedLo : ℝ := 260

/-- CFG.baseSpeed[1] from line 15. -/
def CFG.baseSpeedHi : ℝ := 320

/-- CFG.accelMax from line 16. -/
def CFG.accelMax : ℝ := 900

/-- CFG.inertia from line 16. -/
def CFG.inertia : ℝ := 0.86

/-- CFG.wanderStrength from line 17. -/
def CFG.wanderStrength : ℝ := 240

/-- CFG.wanderTurnRate from line 17. -/
def CFG.wanderTurnRate : ℝ := 2.6

/-- CFG.wanderJitter from line 17. -/
def CFG.wanderJitter : ℝ := 0.9

/-- CFG.edgePad from line 18. -/
def CFG.edgePad : ℝ := 6

/-- CFG.burstSize from line 9. -/
def CFG.burstSize : ℕ := 2

/-- CFG.activeMaxPerSurface from line 10. -/
def CFG.activeMaxPerSurface : ℕ := 2

/-- clamp(v,a,b)=Math.max(a,Math.min(b,v)) from line 29. -/
noncomputable def clamp (v a b : ℝ) : ℝ := max a (min b v)

/-- rnd(a,b)=a+Math.random()*(b-a) from line 28; the Math.random() draw is the
explicit parameter r. -/
def rnd (r a b : ℝ) : ℝ := a + r * (b - a)

/-- Math.atan2(y,x), idealised as the argument of the complex number x + y·i
(both take values in (-π, π] and agree on every nonzero vector, and both
return 0 at the origin). -/
noncomputable def atan2 (y x : ℝ) : ℝ := Complex.arg ⟨x, y⟩

/-- The louse record created by makeLouse (lines 85–98), without the DOM
node: position, velocity and exit target as complex numbers (re ↔ x,
im ↔ y), wander heading, animation frame index, alive flag. -/
structure Louse where
  pos : ℂ
  vel : ℂ
  exit : ℂ
  wanderAngle : ℝ
  frame : ℕ
  alive : Bool

/-- limit(x,y,max) from lines 176–180: scale the vector down to magnitude mx
when it exceeds mx (and is nonzero), else return it unchanged. -/
noncomputable def limit (v : ℂ) (mx : ℝ) : ℂ :=
  if Complex.abs v > mx ∧ Complex.abs v > 0 then ↑(mx / Complex.abs v) * v else v

/-- steerToward(L,tx,ty,accelBudget) from lines 182–194: desired velocity is
the unit vector toward the target scaled to the current speed clamped into
[speedMin, speedMax]; the returned steering acceleration is
desired − velocity, magnitude-limited to the budget.  The JavaScript
`len = Math.hypot(...) || 1` zero-guard becomes an if on Complex.abs d = 0. -/
noncomputable def steerToward (pos vel target : ℂ) (accelBudget : ℝ) : ℂ :=
  let d := target - pos
  let len : ℝ := if Complex.abs d = 0 then 1 else Complex.abs d
  let desiredSpeed := clamp (Complex.abs vel) CFG.speedMin CFG.speedMax
  limit (d / ↑len * ↑desiredSpeed - vel) accelBudget

/-- The wander-heading update of wanderForce (lines 196–199):
delta = rnd(-maxDelta, maxDelta) * (0.5 + 0.5*wanderJitter) with
maxDelta = wanderTurnRate * dt, added to the current heading. -/
def wanderAngleNext (θ dt r : ℝ) : ℝ :=
  θ + rnd r (-(CFG.wanderTurnRate * dt)) (CFG.wanderTurnRate * dt) * (0.5 + 0.5 * CFG.wanderJitter)

/-- The acceleration returned by wanderForce (lines 200–203) at heading θ:
(cos θ, sin θ) scaled by wanderStrength. -/
noncomputable def wanderForce (θ : ℝ) : ℂ :=
  ⟨Real.cos θ * CFG.wanderStrength, Real.sin θ * CFG.wanderStrength⟩

/-- The combined per-step acceleration of tick (lines 228–233): wander force
at the drifted heading plus steering toward the exit, the sum
magnitude-limited to accelMax. -/
noncomputable def combinedAccel (L : Louse) (dt r : ℝ) : ℂ :=
  limit (wanderForce (wanderAngleNext L.wanderAngle dt r) +
         steerToward L.pos L.vel L.exit CFG.accelMax) CFG.accelMax

/-- The speed-clamp step of tick (lines 239–242):
sp = Math.hypot(vx,vy) || 1; spClamped = clamp(sp, speedMin, speedMax);
if they differ, rescale the velocity by spClamped/sp. -/
noncomputable def clampStep (v : ℂ) : ℂ :=
  let sp : ℝ := if Complex.abs v = 0 then 1 else Complex.abs v
  let spClamped := clamp sp CFG.speedMin CFG.speedMax
  if sp ≠ spClamped then ↑(spClamped / sp) * v else v

/-- The per-entity body of tick (lines 222–252), physics only (no DOM
transform write): skip dead entities; otherwise combine forces, integrate
velocity with inertia, clamp speed, integrate position and update the wander
heading.  dt is the frame delta in seconds, r the Math.random() draw used by
wanderForce. -/
noncomputable def tickEntity (L : Louse) (dt r : ℝ) : Louse :=
  if L.alive then
    let a := combinedAccel L dt r
    let v2 := clampStep (L.vel * ↑CFG.inertia + a * ↑dt)
    { L with wanderAngle := wanderAngleNext L.wanderAngle dt r,
             vel := v2,
             pos := L.pos + v2 * ↑dt }
  else L

/-- The despawn condition of maybeDespawn (line 209):
x < -size or x > W or y < -size or y > H. -/
def despawnCond (W H x y : ℝ) : Prop :=
  x < -CFG.size ∨ x > W ∨ y < -CFG.size ∨ y > H

noncomputable instance (W H x y : ℝ) : Decidable (despawnCond W H x y) := by
  unfold despawnCond
  infer_instance

/-- maybeDespawn from lines 206–214, state part only: when the despawn
condition holds the entity is marked not-alive (the 180 ms fade-then-remove
timer is DOM bookkeeping outside this model). -/
noncomputable def maybeDespawn (W H : ℝ) (L : Louse) : Louse :=
  if despawnCond W H L.pos.re L.pos.im then { L with alive := false } else L

/-- The entry/exit geometry of configureRoute (lines 103–124): given the
side draw (0=bottom, 1=top, 2=left, 3=right; the catch-all match arm is the
source's final else) and the offset draws r1, r2, the tuple
(entry x, entry y, exit x, exit y). -/
noncomputable def routeOf (W H : ℝ) (side : ℕ) (r1 r2 : ℝ) : ℝ × ℝ × ℝ × ℝ :=
  let S := CFG.size
  let pad := CFG.edgePad
  match side with
  | 0 => (clamp (rnd r1 pad (W - S - pad)) pad (W - S - pad), H - S,
          clamp (rnd r2 pad (W - S - pad)) pad (W - S - pad), -S - 4)
  | 1 => (clamp (rnd r1 pad (W - S - pad)) pad (W - S - pad), 0,
          clamp (rnd r2 pad (W - S - pad)) pad (W - S - pad), H + 4)
  | 2 => (0, clamp (rnd r1 pad (H - S - pad)) pad (H - S - pad),
          W + 4, clamp (rnd r2 pad (H - S - pad)) pad (H - S - pad))
  | _ => (W - S, clamp (rnd r1 pad (H - S - pad)) pad (H - S - pad),
          -S - 4, clamp (rnd r2 pad (H - S - pad)) pad (H - S - pad))

/-- The travel angle ang = Math.atan2(dy, dx) of lines 127–128, from entry
point to exit point. -/
noncomputable def routeAngle (W H : ℝ) (side : ℕ) (r1 r2 : ℝ) : ℝ :=
  atan2 ((routeOf W H side r1 r2).2.2.2 - (routeOf W H side r1 r2).2.1)
        ((routeOf W H side r1 r2).2.2.1 - (routeOf W H side r1 r2).1)

/-- configureRoute(L, W, H) from lines 101–135: place the entity on the
drawn entry edge, aim its exit at the opposite edge (routeOf), set the
initial velocity at the travel angle with a random base speed
(spd = rnd(...CFG.baseSpeed), lines 126–131) and bias the wander heading by
rnd(-0.6, 0.6) (line 132).  side is the Math.floor(Math.random()*4) draw;
r1, r2, rs, rw are the Math.random() draws for the entry offset, exit
offset, base speed and wander bias.  The transform write of line 134 is DOM
output and not part of the state. -/
noncomputable def configureRoute (L : Louse) (W H : ℝ) (side : ℕ) (r1 r2 rs rw : ℝ) : Louse :=
  let ang := routeAngle W H side r1 r2
  let spd := rnd rs CFG.baseSpeedLo CFG.baseSpeedHi
  { L with pos := ⟨(routeOf W H side r1 r2).1, (routeOf W H side r1 r2).2.1⟩,
           exit := ⟨(routeOf W H side r1 r2).2.2.1, (routeOf W H side r1 r2).2.2.2⟩,
           vel := ⟨Real.cos ang * spd, Real.sin ang * spd⟩,
           wanderAngle := ang + rnd rw (-0.6) 0.6 }

/-- The frame-delta computation of loop (line 260):
dt = Math.min(0.05, (ts - lastT)/1000). -/
noncomputable def dtOf (ts lastT : ℝ) : ℝ := min 0.05 ((ts - lastT) / 1000)

/-- The data a surface's entry in the surfaces Map carries (line 24:
element -> { layer, lice }), reduced to what the algorithms read: the id of
the element the layer node is currently attached to (layer.parentElement)
and the list of lice on the layer.  The entity type E is abstract: the
claims about the registry concern counts and identity of entities, not their
fields. -/
structure Surf (E : Type) where
  parent : ℕ
  lice : List E
deriving DecidableEq

/-- The surfaces Map (line 24) as an association list from element ids. -/
abbrev Registry (E : Type) : Type := List (ℕ × Surf E)

/-- surfaces.get(el): first entry with the given key. -/
def lookupSurf {E : Type} : Registry E → ℕ → Option (Surf E)
  | [], _ => none
  | (k, s) :: rest, el => if k = el then some s else lookupSurf rest el

/-- Replace the first entry with the given key by applying f to it (a JS Map
holds at most one entry per key, so this is the Map update). -/
def updateSurf {E : Type} : Registry E → ℕ → (Surf E → Surf E) → Registry E
  | [], _, _ => []
  | (k, s) :: rest, el, f =>
      if k = el then (k, f s) :: rest else (k, s) :: updateSurf rest el f

/-- The per-element body of ensureLayersOnVisiblePages (lines 68–79): if the
element has no surface yet, create a layer appended to the element (parent :=
el) with an empty lice set; otherwise re-append the existing layer to the
element only when its parent differs (el.appendChild moves the node). -/
def ensureOne {E : Type} (st : Registry E) (el : ℕ) : Registry E :=
  match lookupSurf st el with
  | none => st ++ [(el, ⟨el, []⟩)]
  | some info => if info.parent ≠ el then updateSurf st el (fun i => { i with parent := el }) else st

/-- ensureLayersOnVisiblePages (lines 54–82) given the list vis of currently
visible page ids (getVisiblePages is DOM measurement, modelled as this
input); the loop over surfaces that are no longer visible (lines 58–65) has
an empty body in the source and is omitted.  Returns the updated registry;
the source returns vis, which the caller already has. -/
def ensureLayersOnVisiblePages {E : Type} : List ℕ → Registry E → Registry E
  | [], st => st
  | el :: rest, st => ensureLayersOnVisiblePages rest (ensureOne st el)

/-- spawnOneOn(surfaceEl) from lines 137–147: missing surface → null; at or
above the per-surface cap → null with no state change; otherwise the new
louse e (the result of makeLouse + configureRoute, whose construction reads
the DOM and Math.random() and is passed in here) is added to the surface's
lice set. -/
def spawnOneOn {E : Type} (e : E) (st : Registry E) (el : ℕ) : Option E × Registry E :=
  match lookupSurf st el with
  | none => (none, st)
  | some info =>
      if CFG.activeMaxPerSurface ≤ info.lice.length then (none, st)
      else (some e, updateSurf st el (fun i => { i with lice := e :: i.lice }))

/-- One pass of spawnBurst's for-loop over the shuffled visible surfaces
(lines 159–163): stop when remaining hits 0, attempt one spawn per surface,
decrement remaining on success.  es enumerates the lice makeLouse would
create (es n is the (n+1)-th louse constructed); spawned counts successful
constructions.  Returns (remaining, spawned, registry). -/
def spawnPass {E : Type} (es : ℕ → E) : List ℕ → ℕ → ℕ → Registry E → ℕ × ℕ × Registry E
  | [], remaining, spawned, st => (remaining, spawned, st)
  | el :: rest, remaining, spawned, st =>
      if remaining = 0 then (remaining, spawned, st)
      else
        match spawnOneOn (es spawned) st el with
        | (some _, st') => spawnPass es rest (remaining - 1) (spawned + 1) st'
        | (none, st') => spawnPass es rest remaining spawned st'

/-- spawnBurst from lines 149–173: ensure layers on the visible pages, no-op
when none are visible, then up to two passes over the shuffled visible list
(vis is the already-shuffled order, a Math.random() effect). -/
def spawnBurst {E : Type} (es : ℕ → E) (vis : List ℕ) (st : Registry E) : Registry E :=
  let st0 := ensureLayersOnVisiblePages vis st
  if vis = [] then st0
  else
    let p1 := spawnPass es vis CFG.burstSize 0 st0
    if 0 < p1.1 then (spawnPass es vis p1.1 p1.2.1 p1.2.2).2.2 else p1.2.2

/-- A call in a sequence of spawn operations: a direct spawnOneOn call or a
spawnBurst (with its visible list and louse supply). -/
inductive SpawnOp (E : Type) where
  | one (el : ℕ) (e : E)
  | burst (vis : List ℕ) (es : ℕ → E)

/-- Run a sequence of spawn calls against the registry. -/
def runOps {E : Type} : List (SpawnOp E) → Registry E → Registry E
  | [], st => st
  | SpawnOp.one el e :: rest, st => runOps rest (spawnOneOn e st el).2
  | SpawnOp.burst vis es :: rest, st => runOps rest (spawnBurst es vis st)

/-- The per-surface cap invariant: every surface's lice count is at most
CFG.activeMaxPerSurface. -/
def capOK {E : Type} (st : Registry E) : Prop :=
  ∀ p ∈ st, (Prod.snd p).lice.length ≤ CFG.activeMaxPerSurface

/-- Number of registry entries (overlay layers) attached to element el. -/
def countKey {E : Type} (st : Registry E) (el : ℕ) : ℕ :=
  (st.filter (fun p => p.1 = el)).length

/-! ### Helper lemmas about the vector operations -/

lemma abs_real_mul (c : ℝ) (v : ℂ) : Complex.abs (↑c * v) = |c| * Complex.abs v := by
  rw [map_mul, Complex.abs_ofReal]

lemma clamp_le_left (v a b : ℝ) : a ≤ clamp v a b := le_max_left a _

lemma clamp_le_right (v a b : ℝ) (h : a ≤ b) : clamp v a b ≤ b :=
  max_le h (min_le_left b v)

lemma clamp_mem_Icc (v a b : ℝ) (h : a ≤ b) : clamp v a b ∈ Set.Icc a b :=
  Set.mem_Icc.mpr ⟨clamp_le_left v a b, clamp_le_right v a b h⟩

/-- The magnitude limiter never returns a vector longer than its bound. -/
lemma limit_abs_le (v : ℂ) (mx : ℝ) (h : 0 ≤ mx) : Complex.abs (limit v mx) ≤ mx := by
  unfold limit
  by_cases hc : Complex.abs v > mx ∧ Complex.abs v > 0
  · rw [if_pos hc, abs_real_mul, abs_of_nonneg (div_nonneg h (Complex.abs.nonneg v)),
      div_mul_cancel₀ mx (ne_of_gt hc.2)]
  · rw [if_neg hc]
    rcases not_and_or.mp hc with h1 | h2
    · exact le_of_not_lt h1
    · have : Complex.abs v = 0 := le_antisymm (le_of_not_lt h2) (Complex.abs.nonneg v)
      linarith

/-- Reverse triangle inequality for Complex.abs, in the form used below. -/
lemma abs_sub_abs_le_abs_add (x y : ℂ) :
    Complex.abs x - Complex.abs y ≤ Complex.abs (x + y) := by
  have h := Complex.abs.add_le (x + y) (-y)
  rw [add_neg_cancel_right, Complex.abs.map_neg] at h
  linarith

/-- The speed-clamp step, in closed form away from the zero vector. -/
lemma clampStep_eq (v : ℂ) (h : Complex.abs v ≠ 0) :
    clampStep v = ↑(clamp (Complex.abs v) CFG.speedMin CFG.speedMax / Complex.abs v) * v := by
  unfold clampStep
  simp only [if_neg h]
  by_cases hc : Complex.abs v ≠ clamp (Complex.abs v) CFG.speedMin CFG.speedMax
  · rw [if_pos hc]
  · rw [if_neg hc]
    push_neg at hc
    rw [← hc, div_self h, Complex.ofReal_one, one_mul]

/-- Away from the zero vector, the speed-clamp step produces exactly the
clamped magnitude. -/
lemma clampStep_abs (v : ℂ) (h : Complex.abs v ≠ 0) :
    Complex.abs (clampStep v) = clamp (Complex.abs v) CFG.speedMin CFG.speedMax := by
  have hpos : 0 < Complex.abs v := lt_of_le_of_ne (Complex.abs.nonneg v) (Ne.symm h)
  have hcl : 0 ≤ clamp (Complex.abs v) CFG.speedMin CFG.speedMax := by
    have := clamp_le_left (Complex.abs v) CFG.speedMin CFG.speedMax
    have : (0:ℝ) ≤ CFG.speedMin := by norm_num [CFG.speedMin]
    linarith [clamp_le_left (Complex.abs v) CFG.speedMin CFG.speedMax]
  rw [clampStep_eq v h, abs_real_mul, abs_of_nonneg (div_nonneg hcl (Complex.abs.nonneg v)),
    div_mul_cancel₀ _ h]

/-- The combined wander + steering acceleration of a tick is bounded by
accelMax. -/
lemma combinedAccel_abs_le (L : Louse) (dt r : ℝ) :
    Complex.abs (combinedAccel L dt r) ≤ CFG.accelMax := by
  unfold combinedAccel
  exact limit_abs_le _ _ (by norm_num [CFG.accelMax])

/-- The speed-clamp step maps the zero vector to itself: the zero-magnitude
guard substitutes sp = 1, the clamp yields speedMin, and rescaling the zero
vector by speedMin/1 leaves it at zero. -/
lemma clampStep_zero : clampStep 0 = 0 := by
  unfold clampStep
  norm_num [clamp, CFG.speedMin, CFG.speedMax, min_def, max_def]

/-- Velocity and position of a live entity after one tick, unfolded. -/
lemma tickEntity_alive (L : Louse) (dt r : ℝ) (h : L.alive = true) :
    (tickEntity L dt r).vel
        = clampStep (L.vel * ↑CFG.inertia + combinedAccel L dt r * ↑dt) ∧
      (tickEntity L dt r).pos = L.pos + (tickEntity L dt r).vel * ↑dt := by
  unfold tickEntity
  rw [if_pos (by simp [h])]
  exact ⟨rfl, rfl⟩

/-- The despawn condition, restated as the position leaving the surface
rectangle extended by the sprite size: x outside [-size, W] or y outside
[-size, H]. -/
lemma despawnCond_iff (W H x y : ℝ) :
    despawnCond W H x y ↔ ¬(x ∈ Set.Icc (-CFG.size) W ∧ y ∈ Set.Icc (-CFG.size) H) := by
  simp only [despawnCond, Set.mem_Icc, gt_iff_lt, ← not_le]
  tauto

/-- A vector written componentwise as (cos θ · s, sin θ · s) is the real
scalar s times the unit vector at angle θ. -/
lemma mk_eq_real_mul_cis (θ s : ℝ) :
    (⟨Real.cos θ * s, Real.sin θ * s⟩ : ℂ) =
      ↑s * (Complex.cos ↑θ + Complex.sin ↑θ * Complex.I) := by
  apply Complex.ext <;>
    simp [Complex.cos_ofReal_re, Complex.sin_ofReal_re] <;> ring

lemma abs_mk_cos_sin (θ s : ℝ) :
    Complex.abs ⟨Real.cos θ * s, Real.sin θ * s⟩ = |s| := by
  rw [mk_eq_real_mul_cis, map_mul, Complex.abs_ofReal,
    Complex.abs_cos_add_sin_mul_I, mul_one]

lemma atan2_mem_Ioc (y x : ℝ) : atan2 y x ∈ Set.Ioc (-Real.pi) Real.pi :=
  Complex.arg_mem_Ioc _

/-- Math.atan2 recovers the heading of a vector given in polar form with a
positive length. -/
lemma atan2_mk_cos_sin (θ s : ℝ) (hs : 0 < s) (hθ : θ ∈ Set.Ioc (-Real.pi) Real.pi) :
    atan2 (Real.sin θ * s) (Real.cos θ * s) = θ := by
  unfold atan2
  rw [mk_eq_real_mul_cis, Complex.arg_real_mul _ hs, Complex.arg_cos_add_sin_mul_I hθ]

/-- A base-speed draw with the random in [0,1] lands in the configured
base-speed range, which is positive. -/
lemma rnd_baseSpeed_mem (rs : ℝ) (h0 : 0 ≤ rs) (h1 : rs ≤ 1) :
    rnd rs CFG.baseSpeedLo CFG.baseSpeedHi ∈ Set.Icc CFG.baseSpeedLo CFG.baseSpeedHi := by
  rw [Set.mem_Icc]
  unfold rnd CFG.baseSpeedLo CFG.baseSpeedHi
  constructor <;> nlinarith

lemma routeAngle_mem_Ioc (W H : ℝ) (side : ℕ) (r1 r2 : ℝ) :
    routeAngle W H side r1 r2 ∈ Set.Ioc (-Real.pi) Real.pi := by
  unfold routeAngle
  exact atan2_mem_Ioc _ _

/-! ### Helper lemmas about the surface registry -/

lemma lookupSurf_mem {E : Type} (st : Registry E) (el : ℕ) (s : Surf E)
    (h : lookupSurf st el = some s) : (el, s) ∈ st := by
  induction st with
  | nil => simp [lookupSurf] at h
  | cons p rest ih =>
    obtain ⟨k, s'⟩ := p
    simp only [lookupSurf] at h
    by_cases hk : k = el
    · rw [if_pos hk] at h
      subst hk
      rw [Option.some.injEq] at h
      subst h
      exact List.mem_cons_self _ _
    · rw [if_neg hk] at h
      exact List.mem_cons_of_mem _ (ih h)

lemma lookup_updateSurf_self {E : Type} (st : Registry E) (el : ℕ) (f : Surf E → Surf E) :
    lookupSurf (updateSurf st el f) el = (lookupSurf st el).map f := by
  induction st with
  | nil => simp [lookupSurf, updateSurf]
  | cons p rest ih =>
    obtain ⟨k, s⟩ := p
    by_cases hk : k = el
    · simp [updateSurf, lookupSurf, if_pos hk]
    · simp [updateSurf, lookupSurf, if_neg hk, ih]

lemma lookup_updateSurf_other {E : Type} (st : Registry E) (el k : ℕ) (f : Surf E → Surf E)
    (h : k ≠ el) : lookupSurf (updateSurf st el f) k = lookupSurf st k := by
  induction st with
  | nil => simp [lookupSurf, updateSurf]
  | cons p rest ih =>
    obtain ⟨k', s⟩ := p
    by_cases hk : k' = el
    · subst hk
      simp [updateSurf, lookupSurf, if_neg (Ne.symm h)]
    · by_cases hk2 : k' = k
      · simp [updateSurf, lookupSurf, if_neg hk, if_pos hk2]
      · simp [updateSurf, lookupSurf, if_neg hk, if_neg hk2, ih]

lemma mem_updateSurf {E : Type} (st : Registry E) (el : ℕ) (f : Surf E → Surf E)
    (q : ℕ × Surf E) (h : q ∈ updateSurf st el f) :
    q ∈ st ∨ ∃ s, lookupSurf st el = some s ∧ q = (el, f s) := by
  induction st with
  | nil => simp [updateSurf] at h
  | cons p rest ih =>
    obtain ⟨k, s'⟩ := p
    simp only [updateSurf] at h
    by_cases hk : k = el
    · rw [if_pos hk] at h
      rcases List.mem_cons.mp h with h1 | h1
      · subst hk
        right
        exact ⟨s', by simp [lookupSurf], h1⟩
      · left
        exact List.mem_cons_of_mem _ h1
    · rw [if_neg hk] at h
      rcases List.mem_cons.mp h with h1 | h1
      · left
        rw [h1]
        exact List.mem_cons_self _ _
      · rcases ih h1 with h2 | ⟨s, hs, hq⟩
        · left
          exact List.mem_cons_of_mem _ h2
        · right
          refine ⟨s, ?_, hq⟩
          simp only [lookupSurf, if_neg hk]
          exact hs

lemma lookup_append_self {E : Type} (st : Registry E) (el : ℕ) (x : Surf E)
    (h : lookupSurf st el = none) : lookupSurf (st ++ [(el, x)]) el = some x := by
  induction st with
  | nil => simp [lookupSurf]
  | cons p rest ih =>
    obtain ⟨k, s⟩ := p
    simp only [lookupSurf] at h ⊢
    by_cases hk : k = el
    · rw [if_pos hk] at h
      exact absurd h (by simp)
    · rw [if_neg hk] at h ⊢
      exact ih h

lemma lookup_append_other {E : Type} (st : Registry E) (el k : ℕ) (x : Surf E)
    (h : k ≠ el) : lookupSurf (st ++ [(k, x)]) el = lookupSurf st el := by
  induction st with
  | nil => simp [lookupSurf, if_neg h]
  | cons p rest ih =>
    obtain ⟨k', s⟩ := p
    by_cases hk : k' = el
    · simp [lookupSurf, if_pos hk]
    · simp only [List.cons_append, lookupSurf, if_neg hk]
      exact ih

/-- spawnOneOn refuses (returning null with no state change) whenever the
surface is at or above the per-surface cap. -/
lemma spawnOneOn_at_cap {E : Type} (st : Registry E) (el : ℕ) (e : E) (s : Surf E)
    (hl : lookupSurf st el = some s) (hc : CFG.activeMaxPerSurface ≤ s.lice.length) :
    spawnOneOn e st el = (none, st) := by
  unfold spawnOneOn
  rw [hl]
  exact if_pos hc

/-- spawnOneOn preserves the per-surface cap invariant. -/
lemma spawnOneOn_capOK {E : Type} (e : E) (st : Registry E) (el : ℕ) (h : capOK st) :
    capOK (spawnOneOn e st el).2 := by
  unfold spawnOneOn
  split
  · exact h
  · rename_i info hl
    split
    · exact h
    · rename_i hc
      push_neg at hc
      intro q hq
      rcases mem_updateSurf st el _ q hq with h1 | ⟨s, hs, hq'⟩
      · exact h q h1
      · rw [hl, Option.some.injEq] at hs
        subst hs
        subst hq'
        simpa using hc

/-- spawnOneOn never evicts: every louse on any surface before a spawn
attempt is still on that surface afterwards. -/
lemma spawnOneOn_noEvict {E : Type} (e : E) (st : Registry E) (el k : ℕ) (s : Surf E)
    (x : E) (hl : lookupSurf st k = some s) (hx : x ∈ s.lice) :
    ∃ s', lookupSurf (spawnOneOn e st el).2 k = some s' ∧ x ∈ s'.lice := by
  unfold spawnOneOn
  split
  · exact ⟨s, hl, hx⟩
  · rename_i info hle
    split
    · exact ⟨s, hl, hx⟩
    · by_cases hk : k = el
      · subst hk
        rw [hl, Option.some.injEq] at hle
        subst hle
        refine ⟨⟨s.parent, e :: s.lice⟩, ?_, List.mem_cons_of_mem _ hx⟩
        show lookupSurf (updateSurf st k fun i => { i with lice := e :: i.lice }) k = _
        rw [lookup_updateSurf_self, hl, Option.map_some']
      · exact ⟨s, by rw [lookup_updateSurf_other st el k _ hk]; exact hl, hx⟩

/-- ensureOne preserves the per-surface cap invariant (a fresh layer starts
with no lice; re-parenting does not touch lice). -/
lemma ensureOne_capOK {E : Type} (st : Registry E) (el : ℕ) (h : capOK st) :
    capOK (ensureOne st el) := by
  unfold ensureOne
  split
  · intro q hq
    rcases List.mem_append.mp hq with h1 | h1
    · exact h q h1
    · have : q = (el, (⟨el, []⟩ : Surf E)) := by simpa using h1
      subst this
      simp
  · split
    · intro q hq
      rcases mem_updateSurf st el _ q hq with h1 | ⟨s, hs, hq'⟩
      · exact h q h1
      · subst hq'
        exact h (el, s) (lookupSurf_mem st el s hs)
    · exact h

lemma ensureLayers_capOK {E : Type} (vis : List ℕ) :
    ∀ st : Registry E, capOK st → capOK (ensureLayersOnVisiblePages vis st) := by
  induction vis with
  | nil => intro st h; exact h
  | cons el rest ih =>
    intro st h
    exact ih _ (ensureOne_capOK st el h)

lemma spawnPass_capOK {E : Type} (es : ℕ → E) (vis : List ℕ) :
    ∀ (remaining spawned : ℕ) (st : Registry E), capOK st →
      capOK (spawnPass es vis remaining spawned st).2.2 := by
  induction vis with
  | nil => intro r sp st h; exact h
  | cons el rest ih =>
    intro r sp st h
    rw [spawnPass]
    by_cases hr : r = 0
    · rw [if_pos hr]
      exact h
    · rw [if_neg hr]
      have hcap := spawnOneOn_capOK (es sp) st el h
      split
      · rename_i l st' hso
        rw [hso] at hcap
        exact ih _ _ st' hcap
      · rename_i st' hso
        rw [hso] at hcap
        exact ih _ _ st' hcap

lemma spawnBurst_capOK {E : Type} (es : ℕ → E) (vis : List ℕ) (st : Registry E)
    (h : capOK st) : capOK (spawnBurst es vis st) := by
  unfold spawnBurst
  have h0 := ensureLayers_capOK vis st h
  by_cases hv : vis = []
  · rw [if_pos hv]
    exact h0
  · rw [if_neg hv]
    have h1 := spawnPass_capOK es vis CFG.burstSize 0 _ h0
    by_cases hp : 0 < (spawnPass es vis CFG.burstSize 0 (ensureLayersOnVisiblePages vis st)).1
    · rw [if_pos hp]
      exact spawnPass_capOK es vis _ _ _ h1
    · rw [if_neg hp]
      exact h1

lemma lookup_ensureOne_self {E : Type} (st : Registry E) (el : ℕ) :
    ∃ s, lookupSurf (ensureOne st el) el = some s ∧ s.parent = el := by
  unfold ensureOne
  split
  · rename_i hl
    exact ⟨⟨el, []⟩, lookup_append_self st el _ hl, rfl⟩
  · rename_i info hl
    split
    · refine ⟨⟨el, info.lice⟩, ?_, rfl⟩
      rw [lookup_updateSurf_self, hl, Option.map_some']
    · rename_i hp
      push_neg at hp
      exact ⟨info, hl, hp⟩

lemma lookup_ensureOne_preserve {E : Type} (st : Registry E) (el el2 : ℕ) (s : Surf E)
    (hl : lookupSurf st el = some s) (hp : s.parent = el) :
    ∃ s', lookupSurf (ensureOne st el2) el = some s' ∧ s'.parent = el := by
  by_cases hk : el2 = el
  · subst hk
    exact lookup_ensureOne_self st el2
  · unfold ensureOne
    split
    · rw [lookup_append_other st el el2 _ hk]
      exact ⟨s, hl, hp⟩
    · split
      · rw [lookup_updateSurf_other st el2 el _ (Ne.symm hk)]
        exact ⟨s, hl, hp⟩
      · exact ⟨s, hl, hp⟩

lemma ensureLayers_preserve {E : Type} (vis : List ℕ) :
    ∀ (st : Registry E) (el : ℕ) (s : Surf E), lookupSurf st el = some s → s.parent = el →
      ∃ s', lookupSurf (ensureLayersOnVisiblePages vis st) el = some s' ∧ s'.parent = el := by
  induction vis with
  | nil => intro st el s hl hp; exact ⟨s, hl, hp⟩
  | cons e rest ih =>
    intro st el s hl hp
    obtain ⟨s', hl', hp'⟩ := lookup_ensureOne_preserve st el e s hl hp
    exact ih _ el s' hl' hp'

/-- After ensureLayersOnVisiblePages, every visible page has a layer whose
parent is that page. -/
lemma ensureLayers_ensured {E : Type} (vis : List ℕ) :
    ∀ (st : Registry E) (el : ℕ), el ∈ vis →
      ∃ s, lookupSurf (ensureLayersOnVisiblePages vis st) el = some s ∧ s.parent = el := by
  induction vis with
  | nil => intro st el h; simp at h
  | cons e rest ih =>
    intro st el h
    rcases List.mem_cons.mp h with h1 | h1
    · subst h1
      obtain ⟨s, hl, hp⟩ := lookup_ensureOne_self st el
      exact ensureLayers_preserve rest _ el s hl hp
    · exact ih _ el h1

lemma ensureOne_id {E : Type} (st : Registry E) (el : ℕ) (s : Surf E)
    (hl : lookupSurf st el = some s) (hp : s.parent = el) : ensureOne st el = st := by
  unfold ensureOne
  split
  · rename_i hl2
    rw [hl] at hl2
    exact absurd hl2 (by simp)
  · rename_i info hl2
    rw [hl, Option.some.injEq] at hl2
    subst hl2
    rw [if_neg (by simp [hp])]

lemma ensureLayers_id {E : Type} (vis : List ℕ) :
    ∀ st : Registry E,
      (∀ el ∈ vis, ∃ s, lookupSurf st el = some s ∧ s.parent = el) →
      ensureLayersOnVisiblePages vis st = st := by
  induction vis with
  | nil => intro st _; rfl
  | cons e rest ih =>
    intro st h
    obtain ⟨s, hl, hp⟩ := h e (List.mem_cons_self _ _)
    rw [show ensureLayersOnVisiblePages (e :: rest) st
        = ensureLayersOnVisiblePages rest (ensureOne st e) from rfl,
      ensureOne_id st e s hl hp]
    exact ih st (fun el hel => h el (List.mem_cons_of_mem _ hel))

lemma countKey_cons {E : Type} (p : ℕ × Surf E) (rest : Registry E) (k : ℕ) :
    countKey (p :: rest) k = (if p.1 = k then 1 else 0) + countKey rest k := by
  by_cases hk : p.1 = k <;> simp [countKey, List.filter_cons, hk]
  omega

lemma countKey_append {E : Type} (st l2 : Registry E) (k : ℕ) :
    countKey (st ++ l2) k = countKey st k + countKey l2 k := by
  simp [countKey, List.filter_append]

lemma countKey_updateSurf {E : Type} (st : Registry E) (el : ℕ) (f : Surf E → Surf E) (k : ℕ) :
    countKey (updateSurf st el f) k = countKey st k := by
  induction st with
  | nil => rfl
  | cons p rest ih =>
    obtain ⟨k', s⟩ := p
    by_cases hk : k' = el
    · simp [updateSurf, if_pos hk, countKey_cons]
    · simp [updateSurf, if_neg hk, countKey_cons, ih]

lemma lookup_none_countKey {E : Type} (st : Registry E) (el : ℕ)
    (h : lookupSurf st el = none) : countKey st el = 0 := by
  induction st with
  | nil => rfl
  | cons p rest ih =>
    obtain ⟨k, s⟩ := p
    simp only [lookupSurf] at h
    by_cases hk : k = el
    · rw [if_pos hk] at h
      exact absurd h (by simp)
    · rw [if_neg hk] at h
      simp [countKey_cons, hk, ih h]

lemma lookup_some_countKey {E : Type} (st : Registry E) (el : ℕ) (s : Surf E)
    (h : lookupSurf st el = some s) : 1 ≤ countKey st el := by
  induction st with
  | nil => simp [lookupSurf] at h
  | cons p rest ih =>
    obtain ⟨k, s'⟩ := p
    simp only [lookupSurf] at h
    by_cases hk : k = el
    · rw [countKey_cons, if_pos hk]
      omega
    · rw [if_neg hk] at h
      rw [countKey_cons]
      have := ih h
      omega

lemma ensureOne_countKey_self {E : Type} (st : Registry E) (el : ℕ) :
    countKey (ensureOne st el) el = max (countKey st el) 1 := by
  unfold ensureOne
  split
  · rename_i hl
    have h0 := lookup_none_countKey st el hl
    rw [countKey_append, h0]
    simp [countKey]
  · rename_i info hl
    have h1 := lookup_some_countKey st el info hl
    split
    · rw [countKey_updateSurf]
      omega
    · omega

lemma ensureOne_countKey_other {E : Type} (st : Registry E) (el el2 : ℕ) (h : el2 ≠ el) :
    countKey (ensureOne st el2) el = countKey st el := by
  unfold ensureOne
  split
  · rw [countKey_append]
    have h2 : countKey [(el2, (⟨el2, []⟩ : Surf E))] el = 0 := by
      simp [countKey, h]
    rw [h2, Nat.add_zero]
  · split
    · rw [countKey_updateSurf]
    · rfl

lemma ensureLayers_countKey_notMem {E : Type} (vis : List ℕ) :
    ∀ (st : Registry E) (el : ℕ), el ∉ vis →
      countKey (ensureLayersOnVisiblePages vis st) el = countKey st el := by
  induction vis with
  | nil => intro st el _; rfl
  | cons e rest ih =>
    intro st el h
    rw [List.mem_cons] at h
    push_neg at h
    rw [show ensureLayersOnVisiblePages (e :: rest) st
        = ensureLayersOnVisiblePages rest (ensureOne st e) from rfl,
      ih _ el h.2, ensureOne_countKey_other st el e (Ne.symm h.1)]

/-- ensureLayersOnVisiblePages gives each visible page exactly one layer:
one is created only when the page had none. -/
lemma ensureLayers_countKey {E : Type} (vis : List ℕ) :
    ∀ (st : Registry E) (el : ℕ), el ∈ vis →
      countKey (ensureLayersOnVisiblePages vis st) el = max (countKey st el) 1 := by
  induction vis with
  | nil => intro st el h; simp at h
  | cons e rest ih =>
    intro st el h
    rw [show ensureLayersOnVisiblePages (e :: rest) st
        = ensureLayersOnVisiblePages rest (ensureOne st e) from rfl]
    by_cases he : e = el
    · subst he
      by_cases hr : e ∈ rest
      · rw [ih _ e hr, ensureOne_countKey_self]
        omega
      · rw [ensureLayers_countKey_notMem rest _ e hr, ensureOne_countKey_self]
    · have h1 : el ∈ rest := by
        rcases List.mem_cons.mp h with h2 | h2
        · exact absurd h2.symm he
        · exact h2
      rw [ih _ el h1, ensureOne_countKey_other st el e he]

lemma runOps_capOK {E : Type} (ops : List (SpawnOp E)) :
    ∀ st : Registry E, capOK st → capOK (runOps ops st) := by
  induction ops with
  | nil => intro st h; exact h
  | cons op rest ih =>
    intro st h
    cases op with
    | one el e => exact ih _ (spawnOneOn_capOK e st el h)
    | burst vis es => exact ih _ (spawnBurst_capOK es vis st h)

/-! ### Claim theorems -/

/-- C4: in every tick the combined acceleration actually applied (wander
plus steering, after the final magnitude limit) has magnitude at most
accelMax, and the steering component alone is already magnitude-limited to
accelMax before being summed with the wander component. -/
theorem claim_accel_double_cap (L : Louse) (dt r : ℝ) (p v t : ℂ) :
    Complex.abs (combinedAccel L dt r) ≤ CFG.accelMax ∧
    Complex.abs (steerToward p v t CFG.accelMax) ≤ CFG.accelMax := by
  refine ⟨combinedAccel_abs_le L dt r, ?_⟩
  unfold steerToward
  exact limit_abs_le _ _ (by norm_num [CFG.accelMax])

/-- C10: the zero-magnitude guards make the speed clamp and the steering
normalisation total: with the target at the current position the steering
divisor is replaced by 1 (no division by zero) and the step reduces to
limiting -velocity; the speed-clamp step leaves a zero velocity at (0,0)
instead of rescaling it to speedMin. -/
theorem claim_zero_guards :
    (∀ (p v : ℂ) (bud : ℝ), steerToward p v p bud = limit (-v) bud) ∧
    clampStep 0 = 0 ∧
    (∀ v : ℂ, Complex.abs v = 0 → clampStep v = v) := by
  refine ⟨?_, clampStep_zero, ?_⟩
  · intro p v bud
    unfold steerToward
    simp
  · intro v h
    have hv : v = 0 := Complex.abs.eq_zero.mp h
    rw [hv, clampStep_zero]

/-- Witness for C10 at the zero vector. -/
theorem claim_zero_guards_witness : Complex.abs (0 : ℂ) = 0 ∧ clampStep 0 = 0 :=
  ⟨map_zero Complex.abs, claim_zero_guards.2.2 0 (map_zero Complex.abs)⟩

/-- C2: a live entity is marked not-alive by maybeDespawn exactly when its
position lies outside the surface rectangle extended by the sprite size
(x beyond [-size, W] or y beyond [-size, H]); in particular the boundary
values x = -size and x = W themselves do not trigger despawn. -/
theorem claim_despawn_exact (L : Louse) (W H : ℝ) (hAlive : L.alive = true) (hW : 0 ≤ W) :
    ((maybeDespawn W H L).alive = false ↔
      ¬(L.pos.re ∈ Set.Icc (-CFG.size) W ∧ L.pos.im ∈ Set.Icc (-CFG.size) H)) ∧
    ((L.pos.re = -CFG.size ∨ L.pos.re = W) → L.pos.im ∈ Set.Icc (-CFG.size) H →
      (maybeDespawn W H L).alive = true) := by
  have hiff := despawnCond_iff W H L.pos.re L.pos.im
  by_cases hd : despawnCond W H L.pos.re L.pos.im
  · constructor
    · rw [maybeDespawn, if_pos hd]
      exact iff_of_true rfl (hiff.mp hd)
    · intro hx hy
      exfalso
      apply hiff.mp hd
      refine ⟨?_, hy⟩
      rcases hx with hx | hx
      · exact Set.mem_Icc.mpr ⟨le_of_eq hx.symm, by rw [hx]; norm_num [CFG.size]; linarith⟩
      · exact Set.mem_Icc.mpr ⟨by rw [hx]; norm_num [CFG.size]; linarith, le_of_eq hx⟩
  · constructor
    · rw [maybeDespawn, if_neg hd]
      exact iff_of_false (by simp [hAlive]) (fun hr => hd (hiff.mpr hr))
    · intro _ _
      rw [maybeDespawn, if_neg hd]
      exact hAlive

/-- The C2 scenario entity: x = -10, y = 0 (alive). -/
noncomputable def L10 : Louse :=
  { pos := ⟨-10, 0⟩, vel := 0, exit := 0, wanderAngle := 0, frame := 0, alive := true }

/-- Witness for C2: the scenario entity at x = -10 on a surface of width 800
(height 600) is not despawned. -/
theorem claim_despawn_exact_witness :
    L10.alive = true ∧ (0:ℝ) ≤ 800 ∧ (maybeDespawn 800 600 L10).alive = true := by
  refine ⟨rfl, by norm_num, ?_⟩
  have h := (claim_despawn_exact L10 800 600 rfl (by norm_num)).1
  have hin : L10.pos.re ∈ Set.Icc (-CFG.size) (800:ℝ) ∧
      L10.pos.im ∈ Set.Icc (-CFG.size) (600:ℝ) := by
    constructor <;> rw [Set.mem_Icc] <;> constructor <;> norm_num [L10, CFG.size]
  rcases h' : (maybeDespawn 800 600 L10).alive with _ | _
  · exact absurd (h.mp h') (by tauto)
  · rfl

/-- C1: a tick keeps the speed of a live entity within
[speedMin, speedMax]: if the entity's speed was in range before the tick
(as every spawned entity's is) and the frame delta is the loop's clamped
dt ∈ [0, 0.05], then after the integration and clamp steps the new speed is
again in [speedMin, speedMax].  (The inertia and acceleration bounds keep
the integrated velocity away from zero, so the clamp step always lands in
the interval.) -/
theorem claim_speed_bound (L : Louse) (dt r : ℝ) (hAlive : L.alive = true)
    (hv : Complex.abs L.vel ∈ Set.Icc CFG.speedMin CFG.speedMax)
    (hdt : dt ∈ Set.Icc (0:ℝ) 0.05) :
    Complex.abs (tickEntity L dt r).vel ∈ Set.Icc CFG.speedMin CFG.speedMax := by
  obtain ⟨hvel, -⟩ := tickEntity_alive L dt r hAlive
  rw [hvel]
  set v' := L.vel * ↑CFG.inertia + combinedAccel L dt r * ↑dt with hv'
  have ha := combinedAccel_abs_le L dt r
  rw [Set.mem_Icc] at hv hdt
  have hv1 : (240:ℝ) ≤ Complex.abs L.vel := by simpa [CFG.speedMin] using hv.1
  have h1 : Complex.abs (L.vel * ↑CFG.inertia) = Complex.abs L.vel * CFG.inertia := by
    rw [map_mul, Complex.abs_ofReal, abs_of_nonneg (by norm_num [CFG.inertia])]
  have h1' : (206.4:ℝ) ≤ Complex.abs (L.vel * ↑CFG.inertia) := by
    rw [h1, CFG.inertia]
    linarith
  have h2 : Complex.abs (combinedAccel L dt r * ↑dt) ≤ 45 := by
    rw [map_mul, Complex.abs_ofReal, abs_of_nonneg hdt.1]
    calc Complex.abs (combinedAccel L dt r) * dt ≤ 900 * 0.05 :=
          mul_le_mul (by simpa [CFG.accelMax] using ha) hdt.2 hdt.1 (by norm_num)
      _ = 45 := by norm_num
  have ht := abs_sub_abs_le_abs_add (L.vel * ↑CFG.inertia) (combinedAccel L dt r * ↑dt)
  rw [← hv'] at ht
  have hne : Complex.abs v' ≠ 0 := by
    have : (161.4:ℝ) ≤ Complex.abs v' := by linarith
    linarith
  rw [clampStep_abs v' hne]
  exact clamp_mem_Icc _ _ _ (by norm_num [CFG.speedMin, CFG.speedMax])

/-- A live entity travelling at speed 300 used as the C1/C9 witness input. -/
noncomputable def L300 : Louse :=
  { pos := 0, vel := 300, exit := 400, wanderAngle := 0, frame := 0, alive := true }

/-- Witness for C1: the speed-300 entity ticked with dt = 0 stays in
[speedMin, speedMax]. -/
theorem claim_speed_bound_witness :
    L300.alive = true ∧
    Complex.abs L300.vel ∈ Set.Icc CFG.speedMin CFG.speedMax ∧
    (0:ℝ) ∈ Set.Icc (0:ℝ) 0.05 ∧
    Complex.abs (tickEntity L300 0 0).vel ∈ Set.Icc CFG.speedMin CFG.speedMax := by
  have h1 : Complex.abs L300.vel ∈ Set.Icc CFG.speedMin CFG.speedMax := by
    norm_num [L300, CFG.speedMin, CFG.speedMax, Set.mem_Icc, Complex.abs_ofNat]
  have h2 : (0:ℝ) ∈ Set.Icc (0:ℝ) 0.05 := by norm_num
  exact ⟨rfl, h1, h2, claim_speed_bound L300 0 0 rfl h1 h2⟩

/-- C9: a tick integrates a live entity exactly as specified — the
integrated velocity is old velocity · inertia + combined acceleration · dt;
the stored velocity is that vector rescaled by clamp(|v'|)/|v'| (so the
direction is preserved and, by the second conjunct, the speed is clamped
into [speedMin, speedMax]); the new position is the old position plus the
new velocity · dt; and the dt handed to tick by the frame loop is
min(0.05, elapsed), hence at most 0.05 seconds. -/
theorem claim_integration (L : Louse) (dt r : ℝ) (hAlive : L.alive = true)
    (hne : Complex.abs (L.vel * ↑CFG.inertia + combinedAccel L dt r * ↑dt) ≠ 0) :
    (tickEntity L dt r).vel =
      ↑(clamp (Complex.abs (L.vel * ↑CFG.inertia + combinedAccel L dt r * ↑dt))
          CFG.speedMin CFG.speedMax /
        Complex.abs (L.vel * ↑CFG.inertia + combinedAccel L dt r * ↑dt)) *
      (L.vel * ↑CFG.inertia + combinedAccel L dt r * ↑dt) ∧
    Complex.abs (tickEntity L dt r).vel =
      clamp (Complex.abs (L.vel * ↑CFG.inertia + combinedAccel L dt r * ↑dt))
        CFG.speedMin CFG.speedMax ∧
    (tickEntity L dt r).pos = L.pos + (tickEntity L dt r).vel * ↑dt ∧
    (∀ ts lastT : ℝ, dtOf ts lastT ≤ 0.05) := by
  obtain ⟨hvel, hpos⟩ := tickEntity_alive L dt r hAlive
  refine ⟨?_, ?_, hpos, fun ts lastT => min_le_left _ _⟩
  · rw [hvel, clampStep_eq _ hne]
  · rw [hvel, clampStep_abs _ hne]

/-- Witness for C9: the speed-300 entity with dt = 0 has a nonzero
integrated velocity, and the position equation holds for it. -/
theorem claim_integration_witness :
    L300.alive = true ∧
    Complex.abs (L300.vel * ↑CFG.inertia + combinedAccel L300 0 0 * ↑(0:ℝ)) ≠ 0 ∧
    (tickEntity L300 0 0).pos = L300.pos + (tickEntity L300 0 0).vel * ↑(0:ℝ) := by
  have hne : Complex.abs (L300.vel * ↑CFG.inertia + combinedAccel L300 0 0 * ↑(0:ℝ)) ≠ 0 := by
    rw [Complex.ofReal_zero, mul_zero, add_zero]
    rw [show L300.vel = (300:ℂ) from rfl, CFG.inertia, map_mul, Complex.abs_ofReal]
    rw [Complex.abs_ofNat, abs_of_nonneg (by norm_num)]
    norm_num
  exact ⟨rfl, hne, (claim_integration L300 0 0 rfl hne).2.2.1⟩

/-- C6: on a surface W=800, H=600 with sprite size 46 and edge pad 6, a
route configured from the bottom edge (side draw 0) has entry y = 554,
entry x ∈ [6, 748], exit y = -50, exit x ∈ [6, 748], initial speed in the
configured base-speed range [260, 320], and the initial velocity's heading
equal to atan2(exit.y - entry.y, exit.x - entry.x). -/
theorem claim_bottom_scenario (L : Louse) (r1 r2 rs rw : ℝ)
    (hrs0 : 0 ≤ rs) (hrs1 : rs ≤ 1) :
    (configureRoute L 800 600 0 r1 r2 rs rw).pos.im = 554 ∧
    (configureRoute L 800 600 0 r1 r2 rs rw).pos.re ∈ Set.Icc (6:ℝ) 748 ∧
    (configureRoute L 800 600 0 r1 r2 rs rw).exit.im = -50 ∧
    (configureRoute L 800 600 0 r1 r2 rs rw).exit.re ∈ Set.Icc (6:ℝ) 748 ∧
    Complex.abs (configureRoute L 800 600 0 r1 r2 rs rw).vel ∈
      Set.Icc CFG.baseSpeedLo CFG.baseSpeedHi ∧
    atan2 (configureRoute L 800 600 0 r1 r2 rs rw).vel.im
          (configureRoute L 800 600 0 r1 r2 rs rw).vel.re =
      atan2 ((configureRoute L 800 600 0 r1 r2 rs rw).exit.im -
             (configureRoute L 800 600 0 r1 r2 rs rw).pos.im)
            ((configureRoute L 800 600 0 r1 r2 rs rw).exit.re -
             (configureRoute L 800 600 0 r1 r2 rs rw).pos.re) := by
  have hspd := rnd_baseSpeed_mem rs hrs0 hrs1
  have hspd_pos : 0 < rnd rs CFG.baseSpeedLo CFG.baseSpeedHi := by
    have h := (Set.mem_Icc.mp hspd).1
    have : (0:ℝ) < CFG.baseSpeedLo := by norm_num [CFG.baseSpeedLo]
    linarith
  have hposim : (configureRoute L 800 600 0 r1 r2 rs rw).pos.im = 600 - CFG.size := rfl
  have hposre : (configureRoute L 800 600 0 r1 r2 rs rw).pos.re =
      clamp (rnd r1 CFG.edgePad (800 - CFG.size - CFG.edgePad)) CFG.edgePad
        (800 - CFG.size - CFG.edgePad) := rfl
  have hexitim : (configureRoute L 800 600 0 r1 r2 rs rw).exit.im = -CFG.size - 4 := rfl
  have hexitre : (configureRoute L 800 600 0 r1 r2 rs rw).exit.re =
      clamp (rnd r2 CFG.edgePad (800 - CFG.size - CFG.edgePad)) CFG.edgePad
        (800 - CFG.size - CFG.edgePad) := rfl
  refine ⟨?_, ?_, ?_, ?_, ?_, ?_⟩
  · rw [hposim]; norm_num [CFG.size]
  · rw [hposre, show (800:ℝ) - CFG.size - CFG.edgePad = 748 by norm_num [CFG.size, CFG.edgePad],
      show CFG.edgePad = (6:ℝ) by norm_num [CFG.edgePad]]
    exact clamp_mem_Icc _ _ _ (by norm_num)
  · rw [hexitim]; norm_num [CFG.size]
  · rw [hexitre, show (800:ℝ) - CFG.size - CFG.edgePad = 748 by norm_num [CFG.size, CFG.edgePad],
      show CFG.edgePad = (6:ℝ) by norm_num [CFG.edgePad]]
    exact clamp_mem_Icc _ _ _ (by norm_num)
  · show Complex.abs ⟨Real.cos (routeAngle 800 600 0 r1 r2) * rnd rs CFG.baseSpeedLo CFG.baseSpeedHi,
        Real.sin (routeAngle 800 600 0 r1 r2) * rnd rs CFG.baseSpeedLo CFG.baseSpeedHi⟩ ∈
      Set.Icc CFG.baseSpeedLo CFG.baseSpeedHi
    rw [abs_mk_cos_sin, abs_of_pos hspd_pos]
    exact hspd
  · show atan2 (Real.sin (routeAngle 800 600 0 r1 r2) * rnd rs CFG.baseSpeedLo CFG.baseSpeedHi)
        (Real.cos (routeAngle 800 600 0 r1 r2) * rnd rs CFG.baseSpeedLo CFG.baseSpeedHi) =
      routeAngle 800 600 0 r1 r2
    exact atan2_mk_cos_sin _ _ hspd_pos (routeAngle_mem_Ioc 800 600 0 r1 r2)

/-- Witness for C6 at rs = 0. -/
theorem claim_bottom_scenario_witness :
    (0:ℝ) ≤ 0 ∧ (0:ℝ) ≤ 1 ∧ (configureRoute L300 800 600 0 0 0 0 0).pos.im = 554 :=
  ⟨le_refl 0, by norm_num, (claim_bottom_scenario L300 0 0 0 0 (le_refl 0) (by norm_num)).1⟩

/-- C5: on a surface large enough for the sprite and the edge padding, a
route configured with entry side 0/1/2/3 (bottom/top/left/right) places the
entry on that edge and the exit target on the geometrically opposite edge,
4 px past the surface bound (size + 4 px past on the negative sides), with
both the entry offset and the exit offset along the edge confined to
[pad, extent - size - pad]; and the exit target always satisfies the
despawn condition. -/
theorem claim_exit_opposite (L : Louse) (W H : ℝ) (side : ℕ) (r1 r2 rs rw : ℝ)
    (hW : CFG.size + 2 * CFG.edgePad ≤ W) (hH : CFG.size + 2 * CFG.edgePad ≤ H) :
    (side = 0 →
      (configureRoute L W H side r1 r2 rs rw).pos.im = H - CFG.size ∧
      (configureRoute L W H side r1 r2 rs rw).exit.im = -CFG.size - 4 ∧
      (configureRoute L W H side r1 r2 rs rw).pos.re ∈
        Set.Icc CFG.edgePad (W - CFG.size - CFG.edgePad) ∧
      (configureRoute L W H side r1 r2 rs rw).exit.re ∈
        Set.Icc CFG.edgePad (W - CFG.size - CFG.edgePad)) ∧
    (side = 1 →
      (configureRoute L W H side r1 r2 rs rw).pos.im = 0 ∧
      (configureRoute L W H side r1 r2 rs rw).exit.im = H + 4 ∧
      (configureRoute L W H side r1 r2 rs rw).pos.re ∈
        Set.Icc CFG.edgePad (W - CFG.size - CFG.edgePad) ∧
      (configureRoute L W H side r1 r2 rs rw).exit.re ∈
        Set.Icc CFG.edgePad (W - CFG.size - CFG.edgePad)) ∧
    (side = 2 →
      (configureRoute L W H side r1 r2 rs rw).pos.re = 0 ∧
      (configureRoute L W H side r1 r2 rs rw).exit.re = W + 4 ∧
      (configureRoute L W H side r1 r2 rs rw).pos.im ∈
        Set.Icc CFG.edgePad (H - CFG.size - CFG.edgePad) ∧
      (configureRoute L W H side r1 r2 rs rw).exit.im ∈
        Set.Icc CFG.edgePad (H - CFG.size - CFG.edgePad)) ∧
    (side = 3 →
      (configureRoute L W H side r1 r2 rs rw).pos.re = W - CFG.size ∧
      (configureRoute L W H side r1 r2 rs rw).exit.re = -CFG.size - 4 ∧
      (configureRoute L W H side r1 r2 rs rw).pos.im ∈
        Set.Icc CFG.edgePad (H - CFG.size - CFG.edgePad) ∧
      (configureRoute L W H side r1 r2 rs rw).exit.im ∈
        Set.Icc CFG.edgePad (H - CFG.size - CFG.edgePad)) ∧
    despawnCond W H (configureRoute L W H side r1 r2 rs rw).exit.re
      (configureRoute L W H side r1 r2 rs rw).exit.im := by
  have hpadW : CFG.edgePad ≤ W - CFG.size - CFG.edgePad := by
    unfold CFG.size CFG.edgePad at hW ⊢
    linarith
  have hpadH : CFG.edgePad ≤ H - CFG.size - CFG.edgePad := by
    unfold CFG.size CFG.edgePad at hH ⊢
    linarith
  refine ⟨?_, ?_, ?_, ?_, ?_⟩
  · intro h
    subst h
    exact ⟨rfl, rfl, clamp_mem_Icc _ _ _ hpadW, clamp_mem_Icc _ _ _ hpadW⟩
  · intro h
    subst h
    exact ⟨rfl, rfl, clamp_mem_Icc _ _ _ hpadW, clamp_mem_Icc _ _ _ hpadW⟩
  · intro h
    subst h
    exact ⟨rfl, rfl, clamp_mem_Icc _ _ _ hpadH, clamp_mem_Icc _ _ _ hpadH⟩
  · intro h
    subst h
    exact ⟨rfl, rfl, clamp_mem_Icc _ _ _ hpadH, clamp_mem_Icc _ _ _ hpadH⟩
  · rcases side with _ | _ | _ | n
    · refine Or.inr (Or.inr (Or.inl ?_))
      show -CFG.size - 4 < -CFG.size
      norm_num [CFG.size]
    · refine Or.inr (Or.inr (Or.inr ?_))
      show H + 4 > H
      linarith
    · refine Or.inr (Or.inl ?_)
      show W + 4 > W
      linarith
    · refine Or.inl ?_
      show -CFG.size - 4 < -CFG.size
      norm_num [CFG.size]

/-- Witness for C5 on an 800 × 600 surface. -/
theorem claim_exit_opposite_witness :
    CFG.size + 2 * CFG.edgePad ≤ (800:ℝ) ∧
    CFG.size + 2 * CFG.edgePad ≤ (600:ℝ) ∧
    despawnCond 800 600 (configureRoute L300 800 600 0 0 0 0 0).exit.re
      (configureRoute L300 800 600 0 0 0 0 0).exit.im := by
  have hW : CFG.size + 2 * CFG.edgePad ≤ (800:ℝ) := by norm_num [CFG.size, CFG.edgePad]
  have hH : CFG.size + 2 * CFG.edgePad ≤ (600:ℝ) := by norm_num [CFG.size, CFG.edgePad]
  exact ⟨hW, hH, (claim_exit_opposite L300 800 600 0 0 0 0 0 hW hH).2.2.2.2⟩

/-- C3: if every surface satisfies the per-surface cap, then after any
sequence of spawnBurst and spawnOneOn calls every surface still satisfies
it; the cap is enforced at spawn time — spawnOneOn refuses (null, no state
change) when the surface is at or above the cap — and never by eviction:
every louse present before a spawn attempt is still on its surface
afterwards. -/
theorem claim_cap_invariant {E : Type} (ops : List (SpawnOp E)) (st : Registry E)
    (hcap : capOK st) :
    capOK (runOps ops st) ∧
    (∀ (st' : Registry E) (el : ℕ) (e : E) (s : Surf E),
      lookupSurf st' el = some s → CFG.activeMaxPerSurface ≤ s.lice.length →
      spawnOneOn e st' el = (none, st')) ∧
    (∀ (e : E) (el k : ℕ) (s : Surf E) (x : E),
      lookupSurf st k = some s → x ∈ s.lice →
      ∃ s', lookupSurf (spawnOneOn e st el).2 k = some s' ∧ x ∈ s'.lice) :=
  ⟨runOps_capOK ops st hcap,
   fun st' el e s hl hc => spawnOneOn_at_cap st' el e s hl hc,
   fun e el k s x hl hx => spawnOneOn_noEvict e st el k s x hl hx⟩

/-- Witness for C3: a one-surface registry holding one louse, hit with a
burst and a direct spawn, still satisfies the cap. -/
theorem claim_cap_invariant_witness :
    capOK (E := ℕ) [(0, ⟨0, [7]⟩)] ∧
    capOK (runOps [SpawnOp.burst [0] (fun n => n), SpawnOp.one 0 9]
      ([(0, ⟨0, [7]⟩)] : Registry ℕ)) := by
  have h : capOK (E := ℕ) [(0, ⟨0, [7]⟩)] := by
    intro p hp
    simp only [List.mem_singleton] at hp
    subst hp
    simp [CFG.activeMaxPerSurface]
  exact ⟨h, (claim_cap_invariant [SpawnOp.burst [0] (fun n => n), SpawnOp.one 0 9]
    [(0, ⟨0, [7]⟩)] h).1⟩

/-- C7: spawnOneOn on a surface at its cap returns null with no state
change; consequently, with burstSize = 2 and activeMax = 2, a spawnBurst on
a single visible surface already holding 2 lice adds no entity and leaves
the registry unchanged. -/
theorem claim_spawn_at_cap_noop :
    (∀ (E : Type) (st : Registry E) (el : ℕ) (e : E) (s : Surf E),
      lookupSurf st el = some s → CFG.activeMaxPerSurface ≤ s.lice.length →
      spawnOneOn e st el = (none, st)) ∧
    spawnBurst (fun n => n + 10) [0] ([(0, ⟨0, [1, 2]⟩)] : Registry ℕ) =
      [(0, ⟨0, [1, 2]⟩)] :=
  ⟨fun _ st el e s hl hc => spawnOneOn_at_cap st el e s hl hc, rfl⟩

/-- Witness for C7 on a surface at the cap with two lice. -/
theorem claim_spawn_at_cap_noop_witness :
    lookupSurf ([(0, ⟨0, [1, 2]⟩)] : Registry ℕ) 0 = some ⟨0, [1, 2]⟩ ∧
    CFG.activeMaxPerSurface ≤ ([1, 2] : List ℕ).length ∧
    spawnOneOn 9 ([(0, ⟨0, [1, 2]⟩)] : Registry ℕ) 0 = (none, [(0, ⟨0, [1, 2]⟩)]) := by
  refine ⟨rfl, by decide, ?_⟩
  exact claim_spawn_at_cap_noop.1 ℕ [(0, ⟨0, [1, 2]⟩)] 0 9 ⟨0, [1, 2]⟩ rfl (by decide)

/-- C8: running ensureLayersOnVisiblePages twice with the same visible set
leaves the surfaces registry (and hence every layer's parent) exactly as
after the first run; after a run every visible page's layer is attached to
that page, and every visible page carries exactly one layer (one is created
only when the page had none). -/
theorem claim_ensure_idempotent {E : Type} (vis : List ℕ) (st : Registry E) :
    ensureLayersOnVisiblePages vis (ensureLayersOnVisiblePages vis st) =
      ensureLayersOnVisiblePages vis st ∧
    (∀ el ∈ vis, ∃ s, lookupSurf (ensureLayersOnVisiblePages vis st) el = some s ∧
      s.parent = el) ∧
    (∀ el ∈ vis, countKey (ensureLayersOnVisiblePages vis st) el =
      max (countKey st el) 1) :=
  ⟨ensureLayers_id vis _ (fun el hel => ensureLayers_ensured vis st el hel),
   fun el hel => ensureLayers_ensured vis st el hel,
   fun el hel => ensureLayers_countKey vis st el hel⟩

/-- Witness for C8: one visible page over the empty registry. -/
theorem claim_ensure_idempotent_witness :
    (5 ∈ [5]) ∧
    ensureLayersOnVisiblePages [5] (ensureLayersOnVisiblePages [5] ([] : Registry ℕ)) =
      ensureLayersOnVisiblePages [5] ([] : Registry ℕ) ∧
    countKey (ensureLayersOnVisiblePages [5] ([] : Registry ℕ)) 5 =
      max (countKey ([] : Registry ℕ) 5) 1 :=
  ⟨List.mem_singleton.mpr rfl,
   (claim_ensure_idempotent [5] ([] : Registry ℕ)).1,
   (claim_ensure_idempotent [5] ([] : Registry ℕ)).2.2 5 (List.mem_singleton.mpr rfl)⟩


